import Mathlib

/-!
Shallow embedding of the resume analysis engine of TALENT-SCAN-AI
(the function `analyzeResume` in src/src/App.tsx, lines 145-222, together
with the role catalog `JOB_ROLES`, lines 89-118).

Modelling conventions:
* JavaScript strings are modelled as Lean `String` / `List Char`;
  `toLowerCase` is modelled character-wise via `Char.toLower` (the catalog
  keywords and vocabularies are ASCII).
* JavaScript numbers are modelled exactly: integer-valued quantities as
  `Nat` / `Int`, fractional score arithmetic as `ℚ` with `Math.floor`
  as `Int.floor` and `Math.min` as `min`.
* The two regular expressions of the source
  (`/\d+\s+years?/gi` and `/\d{4}\s*-\s*(\d{4}|Present)/gi`) are modelled
  by explicit fuelled scanners that reproduce the left-to-right,
  non-overlapping global matching of the JavaScript engine; the fuel is
  the length of the text, which bounds the number of scanning steps.
* The impure parts (`Math.random()`, `crypto.randomUUID()`, `Date.now()`)
  are passed in as explicit parameters: a stream `rand : ℕ → ℚ` of draws
  (the i-th call of `Math.random()` returns `rand i`), the fresh id and
  the timestamp.
-/

namespace TalentScan

/-- Character class of the JavaScript regex `\s` (also the set removed by
`String.prototype.trim`): whitespace and line terminators. -/
def rxSpace (c : Char) : Bool :=
  [' ', '\t', '\n', '\r', '\x0b', '\x0c', '\u00A0', '\u1680', '\u2000',
   '\u2001', '\u2002', '\u2003', '\u2004', '\u2005', '\u2006', '\u2007',
   '\u2008', '\u2009', '\u200A', '\u2028', '\u2029', '\u202F', '\u205F',
   '\u3000', '\uFEFF'].contains c

/-- `text.split('\n')[0]`: the characters before the first newline. -/
def firstLine (cs : List Char) : List Char :=
  cs.takeWhile (fun c => c != '\n')

/-- `s.trim()`: drop leading and trailing whitespace. -/
def jsTrim (cs : List Char) : List Char :=
  ((cs.dropWhile rxSpace).reverse.dropWhile rxSpace).reverse

/-- `s.toLowerCase()`, character-wise. -/
def lowerStr (s : String) : String :=
  ⟨s.data.map Char.toLower⟩

/-- Does the second list occur at the head of the first list? -/
def leadsWith : List Char → List Char → Bool
  | [], _ => true
  | _ :: _, [] => false
  | p :: ps, c :: cs => p == c && leadsWith ps cs

/-- Does `needle` occur contiguously anywhere in the haystack?
First argument: haystack; second: needle. -/
def listContains : List Char → List Char → Bool
  | [], needle => needle.isEmpty
  | c :: t, needle => leadsWith needle (c :: t) || listContains t needle

/-- `hay.includes(needle)` on JavaScript strings. -/
def containsSubstr (hay needle : String) : Bool :=
  listContains hay.data needle.data

/-- Numeric value of a digit run, as `parseInt` reads it. -/
def digitsToNat (ds : List Char) : ℕ :=
  ds.foldl (fun n c => 10 * n + (c.toNat - '0'.toNat)) 0

/-- Case-insensitive literal match of a (lower-case) pattern at the head
of the input; returns the remaining input on success. -/
def matchCI : List Char → List Char → Option (List Char)
  | [], cs => some cs
  | _ :: _, [] => none
  | p :: ps, c :: cs => if c.toLower == p then matchCI ps cs else none

/-- After the digit run of a `/\d+\s+years?/i` candidate: require at least
one whitespace character, then `year`, then an optional `s`. -/
def matchYearTail (cs : List Char) : Option (List Char) :=
  if (cs.takeWhile rxSpace).isEmpty then none
  else
    match matchCI ['y', 'e', 'a', 'r'] (cs.dropWhile rxSpace) with
    | none => none
    | some r =>
      match r with
      | c :: r2 => if c == 's' || c == 'S' then some r2 else some r
      | [] => some []

/-- All matches of `/\d+\s+years?/gi` in the text, left to right and
non-overlapping, each reported as the numeric value of its digit run
(which is what `parseInt(m.split(' ')[0])` extracts from the match).
The fuel argument bounds the number of scanning steps; every step
consumes at least one character, so fuel = length of the text suffices. -/
def scanYearsF : ℕ → List Char → List ℕ
  | 0, _ => []
  | _ + 1, [] => []
  | fuel + 1, c :: cs =>
    if c.isDigit then
      match matchYearTail (cs.dropWhile Char.isDigit) with
      | some rest => digitsToNat (c :: cs.takeWhile Char.isDigit) :: scanYearsF fuel rest
      | none => scanYearsF fuel cs
    else scanYearsF fuel cs

/-- `text.match(/\d+\s+years?/gi)`, as the list of extracted numbers. -/
def scanYears (cs : List Char) : List ℕ :=
  scanYearsF cs.length cs

/-- After the first four digits of a `/\d{4}\s*-\s*(\d{4}|Present)/i`
candidate: optional whitespace, a hyphen, optional whitespace, then
either four digits or `Present` (case-insensitively). -/
def matchRangeTail (cs : List Char) : Option (List Char) :=
  match cs.dropWhile rxSpace with
  | '-' :: r2 =>
    match r2.dropWhile rxSpace with
    | a :: b :: c :: d :: rest =>
      if a.isDigit && b.isDigit && c.isDigit && d.isDigit then some rest
      else matchCI ['p', 'r', 'e', 's', 'e', 'n', 't'] (a :: b :: c :: d :: rest)
    | r3 => matchCI ['p', 'r', 'e', 's', 'e', 'n', 't'] r3
  | _ => none

/-- Number of matches of `/\d{4}\s*-\s*(\d{4}|Present)/gi`, scanning left
to right without overlap; fuelled like `scanYearsF`. -/
def scanRangesF : ℕ → List Char → ℕ
  | 0, _ => 0
  | fuel + 1, a :: b :: c :: d :: rest =>
    if a.isDigit && b.isDigit && c.isDigit && d.isDigit then
      match matchRangeTail rest with
      | some rest2 => 1 + scanRangesF fuel rest2
      | none => scanRangesF fuel (b :: c :: d :: rest)
    else scanRangesF fuel (b :: c :: d :: rest)
  | _ + 1, _ => 0

/-- `text.match(/\d{4}\s*-\s*(\d{4}|Present)/gi)`, as a match count. -/
def scanRanges (cs : List Char) : ℕ :=
  scanRangesF cs.length cs

/-- The values of the `<N> years` phrases found in the text. -/
def yearTokens (text : String) : List ℕ :=
  scanYears text.data

/-- The number of `<year> - <year|Present>` ranges found in the text. -/
def dateRangeCount (text : String) : ℕ :=
  scanRanges text.data

/-- Experience inference (App.tsx lines 163-173): the maximum of the
`<N> years` phrases if any exist, otherwise twice the number of date
ranges (0 if there are none either). -/
def extractYears (text : String) : ℕ :=
  let ys := yearTokens text
  if ys.isEmpty then 2 * dateRangeCount text
  else ys.foldl max 0

/-- Skill category tag, mirroring the union type `'technical' | 'soft'`. -/
inductive SkillType where
  | technical
  | soft
  deriving DecidableEq

/-- A matched skill (interface `Skill`). -/
structure Skill where
  name : String
  type : SkillType
  proficiency : ℤ
  deriving DecidableEq

/-- The `breakdown` record of an analysis result. -/
structure Breakdown where
  skills : ℤ
  experience : ℤ
  education : ℤ
  deriving DecidableEq

/-- The `experience` record of an analysis result. -/
structure ExperienceInfo where
  years : ℕ
  relevance : ℤ
  summary : String
  deriving DecidableEq

/-- The `education` record of an analysis result. -/
structure EducationInfo where
  degrees : List String
  certifications : List String
  deriving DecidableEq

/-- The root aggregate (interface `AnalysisResult`). -/
structure AnalysisResult where
  id : String
  timestamp : ℤ
  candidateName : String
  jobRole : String
  score : ℤ
  breakdown : Breakdown
  skills : List Skill
  experience : ExperienceInfo
  education : EducationInfo
  recommendations : List String
  rawText : String
  deriving DecidableEq

/-- A role catalog entry (interface `JobRoleConfig`). -/
structure JobRoleConfig where
  id : String
  title : String
  keywords : List String
  softSkills : List String
  minYears : ℕ
  deriving DecidableEq

/-- Catalog entry `frontend` (App.tsx lines 90-96). -/
def frontendRole : JobRoleConfig where
  id := "frontend"
  title := "Frontend Developer"
  keywords := ["React", "TypeScript", "Tailwind", "Next.js", "Vite", "CSS",
    "HTML", "JavaScript", "Redux", "Testing Library"]
  softSkills := ["Communication", "Teamwork", "Problem Solving", "Agile"]
  minYears := 3

/-- Catalog entry `data-scientist` (App.tsx lines 97-103). -/
def dataScientistRole : JobRoleConfig where
  id := "data-scientist"
  title := "Data Scientist"
  keywords := ["Python", "R", "SQL", "Machine Learning", "Pandas", "NumPy",
    "Scikit-learn", "TensorFlow", "PyTorch", "Statistics"]
  softSkills := ["Analytical Thinking", "Data Storytelling", "Curiosity"]
  minYears := 2

/-- Catalog entry `product-manager` (App.tsx lines 104-110). -/
def productManagerRole : JobRoleConfig where
  id := "product-manager"
  title := "Product Manager"
  keywords := ["Roadmap", "Agile", "Scrum", "User Stories",
    "Stakeholder Management", "Market Research", "KPIs", "Product Discovery"]
  softSkills := ["Leadership", "Strategic Thinking", "Empathy", "Negotiation"]
  minYears := 5

/-- Catalog entry `ux-designer` (App.tsx lines 111-117). -/
def uxDesignerRole : JobRoleConfig where
  id := "ux-designer"
  title := "UX Designer"
  keywords := ["Figma", "Adobe XD", "User Research", "Wireframing",
    "Prototyping", "Design Systems", "Accessibility", "Interaction Design"]
  softSkills := ["Creativity", "User Centricity", "Collaboration"]
  minYears := 3

/-- The role catalog `JOB_ROLES` (App.tsx lines 89-118). -/
def JOB_ROLES : List JobRoleConfig :=
  [frontendRole, dataScientistRole, productManagerRole, uxDesignerRole]

/-- `JOB_ROLES.find(r => r.id === roleId) || JOB_ROLES[0]` (line 146). -/
def resolveRole (roleId : String) : JobRoleConfig :=
  (JOB_ROLES.find? (fun r => r.id == roleId)).getD frontendRole

/-- `role.keywords.filter(k => normalizedText.includes(k.toLowerCase()))`
(line 154). -/
def foundTechSkills (text : String) (role : JobRoleConfig) : List String :=
  role.keywords.filter (fun k => containsSubstr (lowerStr text) (lowerStr k))

/-- `role.softSkills.filter(k => normalizedText.includes(k.toLowerCase()))`
(line 155). -/
def foundSoftSkills (text : String) (role : JobRoleConfig) : List String :=
  role.softSkills.filter (fun k => containsSubstr (lowerStr text) (lowerStr k))

/-- The degree vocabulary (line 178). -/
def degreeVocab : List String :=
  ["B.S.", "M.S.", "Ph.D.", "Bachelor", "Master", "Degree"]

/-- The certification vocabulary (line 179). -/
def certVocab : List String :=
  ["AWS", "Google", "Certified", "Certificate"]

/-- `['B.S.', ...].filter(d => text.includes(d))`: case-sensitive test on
the raw text (line 178). -/
def degreesOf (text : String) : List String :=
  degreeVocab.filter (fun d => containsSubstr text d)

/-- `['AWS', ...].filter(c => text.includes(c))` (line 179). -/
def certificationsOf (text : String) : List String :=
  certVocab.filter (fun c => containsSubstr text c)

/-- `skillsScore = (foundTechSkills.length / role.keywords.length) * 100`
(line 182). -/
def skillsScoreQ (text : String) (role : JobRoleConfig) : ℚ :=
  ((foundTechSkills text role).length : ℚ) / (role.keywords.length : ℚ) * 100

/-- `softSkillsScore` (line 183). -/
def softSkillsScoreQ (text : String) (role : JobRoleConfig) : ℚ :=
  ((foundSoftSkills text role).length : ℚ) / (role.softSkills.length : ℚ) * 100

/-- `educationScore = degrees.length > 0 ? 100 : 50` (line 184);
integer-valued. -/
def educationScore (text : String) : ℤ :=
  if (degreesOf text).length > 0 then 100 else 50

/-- `experienceRelevance = Math.min(100, (years / role.minYears) * 100)`
(line 175). -/
def experienceRelevanceQ (text : String) (role : JobRoleConfig) : ℚ :=
  min 100 (((extractYears text : ℚ) / (role.minYears : ℚ)) * 100)

/-- `overallScore` (line 186). -/
def overallScoreZ (text : String) (role : JobRoleConfig) : ℤ :=
  ⌊skillsScoreQ text role * 0.5 + experienceRelevanceQ text role * 0.3
    + (educationScore text : ℚ) * 0.2⌋

/-- Candidate name extraction (lines 150-151). -/
def candidateNameOf (text : String) : String :=
  let nameMatch := jsTrim (firstLine text.data)
  if nameMatch.length < 50 then ⟨nameMatch⟩ else "Unknown Candidate"

/-- The technical skill records (line 158): one per found keyword, with a
proficiency `Math.floor(Math.random() * 30) + 70`; the draw of index `i`
of the stream stands for the i-th call of `Math.random()`. -/
def techSkillsFrom (rand : ℕ → ℚ) : ℕ → List String → List Skill
  | _, [] => []
  | i, s :: ss =>
    ⟨s, SkillType.technical, ⌊rand i * 30⌋ + 70⟩ :: techSkillsFrom rand (i + 1) ss

/-- The soft skill records (line 159), proficiency
`Math.floor(Math.random() * 20) + 80`. -/
def softSkillsFrom (rand : ℕ → ℚ) : ℕ → List String → List Skill
  | _, [] => []
  | i, s :: ss =>
    ⟨s, SkillType.soft, ⌊rand i * 20⌋ + 80⟩ :: softSkillsFrom rand (i + 1) ss

/-- The six recommendation strings (lines 189-196). -/
def recommendationsOf (text : String) (role : JobRoleConfig) : List String :=
  let foundTech := foundTechSkills text role
  let foundSoft := foundSoftSkills text role
  let years := extractYears text
  [if ((foundTech.length : ℚ) < (role.keywords.length : ℚ) / 2) then
      "Add more technical keywords like "
        ++ String.intercalate ", "
            ((role.keywords.filter (fun k => !(foundTech.contains k))).take 2)
        ++ "."
    else "Great technical keyword density.",
   if years < role.minYears then
      "Highlight more relevant projects to compensate for " ++ toString years
        ++ " years of experience (target: " ++ toString role.minYears ++ "+)."
    else "Experience level meets or exceeds role requirements.",
   if !(containsSubstr (lowerStr text) "certification") then
      "Consider adding industry-recognized certifications to boost credibility."
    else "Good certification profile.",
   if foundSoft.length < 2 then
      "Elaborate more on soft skills like leadership or communication in your experience section."
    else "Soft skills are well-represented.",
   "Quantify your achievements with more metrics (e.g., \x27increased revenue by 20%\x27).",
   "Ensure your summary section directly aligns with the specific job description."]

/-- The body of `analyzeResume` after role resolution (lines 147-221),
with the resolved role passed in explicitly. -/
def analyzeWith (text : String) (role : JobRoleConfig) (rand : ℕ → ℚ)
    (uuid : String) (now : ℤ) : AnalysisResult where
  id := uuid
  timestamp := now
  candidateName := candidateNameOf text
  jobRole := role.title
  score := overallScoreZ text role
  breakdown :=
    ⟨⌊(skillsScoreQ text role + softSkillsScoreQ text role) / 2⌋,
     ⌊experienceRelevanceQ text role⌋,
     educationScore text⟩
  skills :=
    techSkillsFrom rand 0 (foundTechSkills text role)
      ++ softSkillsFrom rand (foundTechSkills text role).length
          (foundSoftSkills text role)
  experience :=
    ⟨extractYears text, ⌊experienceRelevanceQ text role⌋,
     toString (extractYears text) ++ " years of experience in related fields."⟩
  education := ⟨degreesOf text, certificationsOf text⟩
  recommendations := recommendationsOf text role
  rawText := text

/-- `analyzeResume(text, roleId)` (App.tsx lines 145-222), with the
impure inputs (random stream, fresh id, timestamp) passed explicitly. -/
def analyzeResume (text roleId : String) (rand : ℕ → ℚ) (uuid : String)
    (now : ℤ) : AnalysisResult :=
  analyzeWith text (resolveRole roleId) rand uuid now


/-! ### Helper lemmas -/

theorem techSkillsFrom_map_name (rand : ℕ → ℚ) (l : List String) :
    ∀ i : ℕ, (techSkillsFrom rand i l).map Skill.name = l := by
  induction l with
  | nil => intro i; rfl
  | cons s ss ih => intro i; simp [techSkillsFrom, ih (i + 1)]

theorem softSkillsFrom_map_name (rand : ℕ → ℚ) (l : List String) :
    ∀ i : ℕ, (softSkillsFrom rand i l).map Skill.name = l := by
  induction l with
  | nil => intro i; rfl
  | cons s ss ih => intro i; simp [softSkillsFrom, ih (i + 1)]

theorem techSkillsFrom_map_type (rand : ℕ → ℚ) (l : List String) :
    ∀ i : ℕ, (techSkillsFrom rand i l).map Skill.type
      = List.replicate l.length SkillType.technical := by
  induction l with
  | nil => intro i; rfl
  | cons s ss ih => intro i; simp [techSkillsFrom, List.replicate_succ, ih (i + 1)]

theorem softSkillsFrom_map_type (rand : ℕ → ℚ) (l : List String) :
    ∀ i : ℕ, (softSkillsFrom rand i l).map Skill.type
      = List.replicate l.length SkillType.soft := by
  induction l with
  | nil => intro i; rfl
  | cons s ss ih => intro i; simp [softSkillsFrom, List.replicate_succ, ih (i + 1)]

theorem mem_techSkillsFrom {rand : ℕ → ℚ} {s : Skill} {l : List String} :
    ∀ i : ℕ, s ∈ techSkillsFrom rand i l →
      s.type = SkillType.technical ∧ s.name ∈ l
        ∧ ∃ j, s.proficiency = ⌊rand j * 30⌋ + 70 := by
  induction l with
  | nil => intro i h; simp [techSkillsFrom] at h
  | cons a as ih =>
    intro i h
    simp only [techSkillsFrom] at h
    rcases List.mem_cons.mp h with h1 | h2
    · refine ⟨by rw [h1], by rw [h1]; exact List.mem_cons_self a as, i, by rw [h1]⟩
    · obtain ⟨ht, hn, hp⟩ := ih (i + 1) h2
      exact ⟨ht, List.mem_cons_of_mem a hn, hp⟩

theorem mem_softSkillsFrom {rand : ℕ → ℚ} {s : Skill} {l : List String} :
    ∀ i : ℕ, s ∈ softSkillsFrom rand i l →
      s.type = SkillType.soft ∧ s.name ∈ l
        ∧ ∃ j, s.proficiency = ⌊rand j * 20⌋ + 80 := by
  induction l with
  | nil => intro i h; simp [softSkillsFrom] at h
  | cons a as ih =>
    intro i h
    simp only [softSkillsFrom] at h
    rcases List.mem_cons.mp h with h1 | h2
    · refine ⟨by rw [h1], by rw [h1]; exact List.mem_cons_self a as, i, by rw [h1]⟩
    · obtain ⟨ht, hn, hp⟩ := ih (i + 1) h2
      exact ⟨ht, List.mem_cons_of_mem a hn, hp⟩

theorem exists_mem_techSkillsFrom {rand : ℕ → ℚ} {k : String} {l : List String} :
    ∀ i : ℕ, k ∈ l →
      ∃ p, Skill.mk k SkillType.technical p ∈ techSkillsFrom rand i l := by
  induction l with
  | nil => intro i h; simp at h
  | cons a as ih =>
    intro i h
    rcases List.mem_cons.mp h with h1 | h2
    · exact ⟨⌊rand i * 30⌋ + 70, by rw [h1]; simp [techSkillsFrom]⟩
    · obtain ⟨p, hp⟩ := ih (i + 1) h2
      exact ⟨p, by simp [techSkillsFrom, hp]⟩

theorem exists_mem_softSkillsFrom {rand : ℕ → ℚ} {k : String} {l : List String} :
    ∀ i : ℕ, k ∈ l →
      ∃ p, Skill.mk k SkillType.soft p ∈ softSkillsFrom rand i l := by
  induction l with
  | nil => intro i h; simp at h
  | cons a as ih =>
    intro i h
    rcases List.mem_cons.mp h with h1 | h2
    · exact ⟨⌊rand i * 20⌋ + 80, by rw [h1]; simp [softSkillsFrom]⟩
    · obtain ⟨p, hp⟩ := ih (i + 1) h2
      exact ⟨p, by simp [softSkillsFrom, hp]⟩

theorem resolveRole_mem (roleId : String) : resolveRole roleId ∈ JOB_ROLES := by
  unfold resolveRole
  cases h : JOB_ROLES.find? (fun r => r.id == roleId) with
  | none => simp [JOB_ROLES]
  | some r => simpa using List.mem_of_find?_eq_some h

theorem catalog_wf : ∀ r ∈ JOB_ROLES,
    0 < r.keywords.length ∧ 0 < r.softSkills.length ∧ 1 ≤ r.minYears := by
  decide

theorem ratio_bounds (a b : ℕ) (hab : a ≤ b) (hb : 0 < b) :
    0 ≤ (a : ℚ) / (b : ℚ) * 100 ∧ (a : ℚ) / (b : ℚ) * 100 ≤ 100 := by
  have hb2 : (0 : ℚ) < (b : ℚ) := by exact_mod_cast hb
  constructor
  · positivity
  · have h1 : (a : ℚ) / (b : ℚ) ≤ 1 := (div_le_one hb2).mpr (by exact_mod_cast hab)
    have h2 := mul_le_mul_of_nonneg_right h1 (by norm_num : (0 : ℚ) ≤ 100)
    simpa using h2

theorem skillsScoreQ_bounds (text : String) (role : JobRoleConfig)
    (h : 0 < role.keywords.length) :
    0 ≤ skillsScoreQ text role ∧ skillsScoreQ text role ≤ 100 :=
  ratio_bounds _ _ (role.keywords.length_filter_le _) h

theorem softSkillsScoreQ_bounds (text : String) (role : JobRoleConfig)
    (h : 0 < role.softSkills.length) :
    0 ≤ softSkillsScoreQ text role ∧ softSkillsScoreQ text role ≤ 100 :=
  ratio_bounds _ _ (role.softSkills.length_filter_le _) h

theorem experienceRelevanceQ_bounds (text : String) (role : JobRoleConfig) :
    0 ≤ experienceRelevanceQ text role ∧ experienceRelevanceQ text role ≤ 100 := by
  unfold experienceRelevanceQ
  refine ⟨le_min (by norm_num) (by positivity), min_le_left _ _⟩

theorem educationScore_cases (text : String) :
    educationScore text = 100 ∨ educationScore text = 50 := by
  unfold educationScore
  split
  · exact Or.inl rfl
  · exact Or.inr rfl

theorem floor_between {x : ℚ} {c : ℤ} (h0 : 0 ≤ x) (h1 : x ≤ (c : ℚ)) :
    0 ≤ ⌊x⌋ ∧ ⌊x⌋ ≤ c := by
  refine ⟨Int.floor_nonneg.mpr h0, ?_⟩
  have h2 : (⌊x⌋ : ℚ) ≤ (c : ℚ) := le_trans (Int.floor_le x) h1
  exact_mod_cast h2

theorem analyzeWith_fields (text : String) (role : JobRoleConfig)
    (r1 r2 : ℕ → ℚ) (u1 u2 : String) (t1 t2 : ℤ) :
    (analyzeWith text role r1 u1 t1).candidateName = (analyzeWith text role r2 u2 t2).candidateName
    ∧ (analyzeWith text role r1 u1 t1).jobRole = (analyzeWith text role r2 u2 t2).jobRole
    ∧ (analyzeWith text role r1 u1 t1).score = (analyzeWith text role r2 u2 t2).score
    ∧ (analyzeWith text role r1 u1 t1).breakdown = (analyzeWith text role r2 u2 t2).breakdown
    ∧ ((analyzeWith text role r1 u1 t1).skills.map Skill.name
        = (analyzeWith text role r2 u2 t2).skills.map Skill.name)
    ∧ ((analyzeWith text role r1 u1 t1).skills.map Skill.type
        = (analyzeWith text role r2 u2 t2).skills.map Skill.type)
    ∧ (analyzeWith text role r1 u1 t1).experience = (analyzeWith text role r2 u2 t2).experience
    ∧ (analyzeWith text role r1 u1 t1).education = (analyzeWith text role r2 u2 t2).education
    ∧ (analyzeWith text role r1 u1 t1).recommendations = (analyzeWith text role r2 u2 t2).recommendations
    ∧ (analyzeWith text role r1 u1 t1).rawText = (analyzeWith text role r2 u2 t2).rawText := by
  refine ⟨rfl, rfl, rfl, rfl, ?_, ?_, rfl, rfl, rfl, rfl⟩
  · simp only [analyzeWith, List.map_append, techSkillsFrom_map_name, softSkillsFrom_map_name]
  · simp only [analyzeWith, List.map_append, techSkillsFrom_map_type, softSkillsFrom_map_type]

/-! ### Claim theorems -/

/-- Claim C2: for every input text and role, the overall score is the floor
of technicalScore * 0.5 + experienceRelevance * 0.3 + educationScore * 0.2,
where technicalScore is the matched-technical fraction times 100 (not the
blended technical+soft average), while the skills breakdown is the floor of
the blended average (technicalScore + softScore) / 2. -/
theorem claim_C2 (text roleId : String) (rand : ℕ → ℚ) (uuid : String) (now : ℤ) :
    (analyzeResume text roleId rand uuid now).score
      = ⌊((foundTechSkills text (resolveRole roleId)).length : ℚ)
            / ((resolveRole roleId).keywords.length : ℚ) * 100 * 0.5
          + experienceRelevanceQ text (resolveRole roleId) * 0.3
          + (educationScore text : ℚ) * 0.2⌋
    ∧ (analyzeResume text roleId rand uuid now).breakdown.skills
      = ⌊(((foundTechSkills text (resolveRole roleId)).length : ℚ)
            / ((resolveRole roleId).keywords.length : ℚ) * 100
          + ((foundSoftSkills text (resolveRole roleId)).length : ℚ)
            / ((resolveRole roleId).softSkills.length : ℚ) * 100) / 2⌋ :=
  ⟨rfl, rfl⟩

/-- Claim C9: apart from the randomized and time-based fields (id,
timestamp, and each Skill.proficiency), the analysis result is a
deterministic pure function of (text, roleId): two invocations with
different random draws, ids and timestamps agree on every other field. -/
theorem claim_C9 (text roleId : String) (r1 r2 : ℕ → ℚ) (u1 u2 : String) (t1 t2 : ℤ) :
    (analyzeResume text roleId r1 u1 t1).candidateName = (analyzeResume text roleId r2 u2 t2).candidateName
    ∧ (analyzeResume text roleId r1 u1 t1).jobRole = (analyzeResume text roleId r2 u2 t2).jobRole
    ∧ (analyzeResume text roleId r1 u1 t1).score = (analyzeResume text roleId r2 u2 t2).score
    ∧ (analyzeResume text roleId r1 u1 t1).breakdown = (analyzeResume text roleId r2 u2 t2).breakdown
    ∧ ((analyzeResume text roleId r1 u1 t1).skills.map Skill.name
        = (analyzeResume text roleId r2 u2 t2).skills.map Skill.name)
    ∧ ((analyzeResume text roleId r1 u1 t1).skills.map Skill.type
        = (analyzeResume text roleId r2 u2 t2).skills.map Skill.type)
    ∧ (analyzeResume text roleId r1 u1 t1).experience = (analyzeResume text roleId r2 u2 t2).experience
    ∧ (analyzeResume text roleId r1 u1 t1).education = (analyzeResume text roleId r2 u2 t2).education
    ∧ (analyzeResume text roleId r1 u1 t1).recommendations = (analyzeResume text roleId r2 u2 t2).recommendations
    ∧ (analyzeResume text roleId r1 u1 t1).rawText = (analyzeResume text roleId r2 u2 t2).rawText :=
  analyzeWith_fields text (resolveRole roleId) r1 r2 u1 u2 t1 t2

/-- Claim C10: whenever the first line of the input trims to the empty
string (in particular for empty input), the candidate name is the empty
string, not the sentinel: the empty trimmed line passes the length check
and is used verbatim. -/
theorem claim_C10 (text roleId : String) (rand : ℕ → ℚ) (uuid : String) (now : ℤ)
    (h : jsTrim (firstLine text.data) = []) :
    (analyzeResume text roleId rand uuid now).candidateName = "" := by
  show candidateNameOf text = ""
  simp only [candidateNameOf, h]
  rfl

/-- Witness for C10 at the empty input text. -/
theorem claim_C10_witness :
    jsTrim (firstLine "".data) = []
    ∧ (analyzeResume "" "frontend" (fun _ => 0) "u" 0).candidateName = "" :=
  ⟨by decide, claim_C10 "" "frontend" (fun _ => 0) "u" 0 (by decide)⟩

/-- Claim C5: an unknown roleId resolves to the catalog-first role; for
every text and every roleId not in the catalog, the analysis agrees with
the analysis under the first role id on every field other than the
randomized and time-based ones, even across different draws. -/
theorem claim_C5 (text roleId : String) (r1 r2 : ℕ → ℚ) (u1 u2 : String) (t1 t2 : ℤ)
    (h : roleId ∉ JOB_ROLES.map JobRoleConfig.id) :
    (analyzeResume text roleId r1 u1 t1).candidateName = (analyzeResume text frontendRole.id r2 u2 t2).candidateName
    ∧ (analyzeResume text roleId r1 u1 t1).jobRole = (analyzeResume text frontendRole.id r2 u2 t2).jobRole
    ∧ (analyzeResume text roleId r1 u1 t1).score = (analyzeResume text frontendRole.id r2 u2 t2).score
    ∧ (analyzeResume text roleId r1 u1 t1).breakdown = (analyzeResume text frontendRole.id r2 u2 t2).breakdown
    ∧ ((analyzeResume text roleId r1 u1 t1).skills.map Skill.name
        = (analyzeResume text frontendRole.id r2 u2 t2).skills.map Skill.name)
    ∧ ((analyzeResume text roleId r1 u1 t1).skills.map Skill.type
        = (analyzeResume text frontendRole.id r2 u2 t2).skills.map Skill.type)
    ∧ (analyzeResume text roleId r1 u1 t1).experience = (analyzeResume text frontendRole.id r2 u2 t2).experience
    ∧ (analyzeResume text roleId r1 u1 t1).education = (analyzeResume text frontendRole.id r2 u2 t2).education
    ∧ (analyzeResume text roleId r1 u1 t1).recommendations = (analyzeResume text frontendRole.id r2 u2 t2).recommendations
    ∧ (analyzeResume text roleId r1 u1 t1).rawText = (analyzeResume text frontendRole.id r2 u2 t2).rawText := by
  have h1 : resolveRole roleId = frontendRole := by
    unfold resolveRole
    rw [List.find?_eq_none.mpr ?_]
    · rfl
    · intro r hr hbeq
      exact h (List.mem_map.mpr ⟨r, hr, eq_of_beq hbeq⟩)
  have h2 : resolveRole frontendRole.id = frontendRole := by decide
  have e1 : analyzeResume text roleId r1 u1 t1 = analyzeWith text frontendRole r1 u1 t1 := by
    unfold analyzeResume
    rw [h1]
  have e2 : analyzeResume text frontendRole.id r2 u2 t2 = analyzeWith text frontendRole r2 u2 t2 := by
    unfold analyzeResume
    rw [h2]
  rw [e1, e2]
  exact analyzeWith_fields text frontendRole r1 r2 u1 u2 t1 t2

/-- Witness for C5 at the unknown role id "backend". -/
theorem claim_C5_witness :
    "backend" ∉ JOB_ROLES.map JobRoleConfig.id
    ∧ (analyzeResume "Bob\n5 years of React" "backend" (fun _ => 0) "u1" 1).score
        = (analyzeResume "Bob\n5 years of React" frontendRole.id (fun _ => 1/2) "u2" 2).score :=
  ⟨by decide,
   (claim_C5 "Bob\n5 years of React" "backend" (fun _ => 0) (fun _ => 1/2) "u1" "u2" 1 2
     (by decide)).2.2.1⟩


theorem le_foldl_max (l : List ℕ) : ∀ a : ℕ, a ≤ l.foldl max a := by
  induction l with
  | nil => intro a; simp
  | cons b t ih =>
    intro a
    simpa using le_trans (le_max_left a b) (ih (max a b))

theorem mem_le_foldl_max (l : List ℕ) : ∀ a n : ℕ, n ∈ l → n ≤ l.foldl max a := by
  induction l with
  | nil => intro a n h; simp at h
  | cons b t ih =>
    intro a n h
    rcases List.mem_cons.mp h with h1 | h2
    · rw [h1]
      simpa using le_trans (le_max_right a b) (le_foldl_max t (max a b))
    · simpa using ih (max a b) n h2

theorem foldl_max_mem (l : List ℕ) : ∀ a : ℕ, l.foldl max a ∈ a :: l := by
  induction l with
  | nil => intro a; simp
  | cons b t ih =>
    intro a
    simp only [List.foldl_cons]
    rcases List.mem_cons.mp (ih (max a b)) with h1 | h2
    · rcases max_choice a b with hm | hm
      · rw [h1, hm]
        exact List.mem_cons_self a (b :: t)
      · rw [h1, hm]
        exact List.mem_cons_of_mem a (List.mem_cons_self b t)
    · exact List.mem_cons_of_mem a (List.mem_cons_of_mem b h2)

theorem overallScoreZ_bounds (text : String) (role : JobRoleConfig)
    (hk : 0 < role.keywords.length) :
    0 ≤ overallScoreZ text role ∧ overallScoreZ text role ≤ 100 := by
  obtain ⟨hA0, hA1⟩ := skillsScoreQ_bounds text role hk
  obtain ⟨hB0, hB1⟩ := experienceRelevanceQ_bounds text role
  have hE := educationScore_cases text
  have hE0 : (0 : ℚ) ≤ (educationScore text : ℚ) := by
    rcases hE with h | h <;> rw [h] <;> norm_num
  have hE1 : (educationScore text : ℚ) ≤ 100 := by
    rcases hE with h | h <;> rw [h] <;> norm_num
  unfold overallScoreZ
  exact floor_between (by norm_num; linarith) (by push_cast; norm_num; linarith)

theorem skillsFloorZ_bounds (text : String) (role : JobRoleConfig)
    (hk : 0 < role.keywords.length) (hs : 0 < role.softSkills.length) :
    0 ≤ ⌊(skillsScoreQ text role + softSkillsScoreQ text role) / 2⌋
      ∧ ⌊(skillsScoreQ text role + softSkillsScoreQ text role) / 2⌋ ≤ 100 := by
  obtain ⟨hA0, hA1⟩ := skillsScoreQ_bounds text role hk
  obtain ⟨hS0, hS1⟩ := softSkillsScoreQ_bounds text role hs
  exact floor_between (by linarith) (by push_cast; linarith)

theorem relevanceFloorZ_bounds (text : String) (role : JobRoleConfig) :
    0 ≤ ⌊experienceRelevanceQ text role⌋ ∧ ⌊experienceRelevanceQ text role⌋ ≤ 100 := by
  obtain ⟨h0, h1⟩ := experienceRelevanceQ_bounds text role
  exact floor_between h0 (by push_cast; linarith)

theorem floor_min (a b : ℚ) : ⌊min a b⌋ = min ⌊a⌋ ⌊b⌋ :=
  Int.floor_mono.map_min

/-- Claim C1: for every input and roleId and every admissible random draw
(each draw in [0,1)), the overall score and all three breakdown components
are integers in [0,100], and every Skill proficiency is in [0,100]; more
precisely technical proficiencies lie in [70,99] and soft ones in [80,99]. -/
theorem claim_C1 (text roleId : String) (rand : ℕ → ℚ) (uuid : String) (now : ℤ)
    (hr : ∀ i, 0 ≤ rand i ∧ rand i < 1) :
    (0 ≤ (analyzeResume text roleId rand uuid now).score
      ∧ (analyzeResume text roleId rand uuid now).score ≤ 100)
    ∧ (0 ≤ (analyzeResume text roleId rand uuid now).breakdown.skills
      ∧ (analyzeResume text roleId rand uuid now).breakdown.skills ≤ 100)
    ∧ (0 ≤ (analyzeResume text roleId rand uuid now).breakdown.experience
      ∧ (analyzeResume text roleId rand uuid now).breakdown.experience ≤ 100)
    ∧ (0 ≤ (analyzeResume text roleId rand uuid now).breakdown.education
      ∧ (analyzeResume text roleId rand uuid now).breakdown.education ≤ 100)
    ∧ ∀ s ∈ (analyzeResume text roleId rand uuid now).skills,
        (0 ≤ s.proficiency ∧ s.proficiency ≤ 100)
        ∧ (s.type = SkillType.technical → 70 ≤ s.proficiency ∧ s.proficiency ≤ 99)
        ∧ (s.type = SkillType.soft → 80 ≤ s.proficiency ∧ s.proficiency ≤ 99) := by
  obtain ⟨hk, hs, hm⟩ := catalog_wf (resolveRole roleId) (resolveRole_mem roleId)
  refine ⟨?_, ?_, ?_, ?_, ?_⟩
  · exact overallScoreZ_bounds text (resolveRole roleId) hk
  · exact skillsFloorZ_bounds text (resolveRole roleId) hk hs
  · exact relevanceFloorZ_bounds text (resolveRole roleId)
  · show 0 ≤ educationScore text ∧ educationScore text ≤ 100
    rcases educationScore_cases text with h | h <;> rw [h] <;> norm_num
  · intro s hsk
    have hsk2 : s ∈ techSkillsFrom rand 0 (foundTechSkills text (resolveRole roleId))
        ++ softSkillsFrom rand (foundTechSkills text (resolveRole roleId)).length
            (foundSoftSkills text (resolveRole roleId)) := hsk
    rcases List.mem_append.mp hsk2 with h | h
    · obtain ⟨ht, _, j, hp⟩ := mem_techSkillsFrom 0 h
      obtain ⟨hr0, hr1⟩ := hr j
      have h30 : 0 ≤ ⌊rand j * 30⌋ := Int.floor_nonneg.mpr (by positivity)
      have h30x : ⌊rand j * 30⌋ < 30 := Int.floor_lt.mpr (by push_cast; nlinarith)
      refine ⟨⟨?_, ?_⟩, fun _ => ⟨?_, ?_⟩, fun hsoft => absurd (ht ▸ hsoft) (by decide)⟩
      all_goals rw [hp]; omega
    · obtain ⟨ht, _, j, hp⟩ := mem_softSkillsFrom _ h
      obtain ⟨hr0, hr1⟩ := hr j
      have h20 : 0 ≤ ⌊rand j * 20⌋ := Int.floor_nonneg.mpr (by positivity)
      have h20x : ⌊rand j * 20⌋ < 20 := Int.floor_lt.mpr (by push_cast; nlinarith)
      refine ⟨⟨?_, ?_⟩, fun htech => absurd (ht ▸ htech) (by decide), fun _ => ⟨?_, ?_⟩⟩
      all_goals rw [hp]; omega

/-- Witness for C1 with the constant-zero random stream. -/
theorem claim_C1_witness :
    ((0 : ℚ) ≤ 0 ∧ (0 : ℚ) < 1)
    ∧ (0 ≤ (analyzeResume "React 5 years B.S." "frontend" (fun _ => 0) "u" 0).score
      ∧ (analyzeResume "React 5 years B.S." "frontend" (fun _ => 0) "u" 0).score ≤ 100) :=
  ⟨⟨le_refl 0, by norm_num⟩,
   (claim_C1 "React 5 years B.S." "frontend" (fun _ => 0) "u" 0
     (fun _ => ⟨le_refl 0, by norm_num⟩)).1⟩

/-- Claim C3 is false on the code: at text "2 years" and role "frontend"
(minYears 3) the code reports floor(200/3) = 66, while the claimed
min(100, round(years / minYears * 100)) is 67 (rounding to nearest). -/
theorem claim_C3_counterexample :
    (analyzeResume "2 years" "frontend" (fun _ => 0) "u" 0).experience.relevance
      ≠ min 100 (round (((extractYears "2 years" : ℚ)
          / ((resolveRole "frontend").minYears : ℚ)) * 100)) := by
  have hy : extractYears "2 years" = 2 := by decide
  have hm : (resolveRole "frontend").minYears = 3 := by decide
  have hL : (analyzeResume "2 years" "frontend" (fun _ => 0) "u" 0).experience.relevance
      = 66 := by
    show ⌊experienceRelevanceQ "2 years" (resolveRole "frontend")⌋ = 66
    unfold experienceRelevanceQ
    rw [hy, hm]
    push_cast
    rw [min_eq_right (by norm_num : (2 : ℚ) / 3 * 100 ≤ 100)]
    rw [Int.floor_eq_iff]
    norm_num
  have hround : round ((2 : ℚ) / 3 * 100) = 67 := by
    rw [round_eq, Int.floor_eq_iff]
    norm_num
  rw [hL, hy, hm]
  push_cast
  rw [hround]
  decide

/-- Claim C3 (amended): the reported experience relevance is
min(100, floor(years / minYears * 100)) — floor, not round — and the
experience breakdown equals that same value. -/
theorem claim_C3_amended (text roleId : String) (rand : ℕ → ℚ) (uuid : String) (now : ℤ)
    (h : 1 ≤ (resolveRole roleId).minYears) :
    (analyzeResume text roleId rand uuid now).experience.relevance
      = min 100 ⌊((extractYears text : ℚ) / ((resolveRole roleId).minYears : ℚ)) * 100⌋
    ∧ (analyzeResume text roleId rand uuid now).breakdown.experience
      = (analyzeResume text roleId rand uuid now).experience.relevance := by
  constructor
  · show ⌊experienceRelevanceQ text (resolveRole roleId)⌋ = _
    unfold experienceRelevanceQ
    rw [floor_min]
    norm_num
  · rfl

/-- Witness for the amended C3 at text "2 years" and role "frontend". -/
theorem claim_C3_witness :
    1 ≤ (resolveRole "frontend").minYears
    ∧ ((analyzeResume "2 years" "frontend" (fun _ => 0) "u" 0).experience.relevance
        = min 100 ⌊((extractYears "2 years" : ℚ)
            / ((resolveRole "frontend").minYears : ℚ)) * 100⌋
      ∧ (analyzeResume "2 years" "frontend" (fun _ => 0) "u" 0).breakdown.experience
        = (analyzeResume "2 years" "frontend" (fun _ => 0) "u" 0).experience.relevance) :=
  ⟨by decide, claim_C3_amended "2 years" "frontend" (fun _ => 0) "u" 0 (by decide)⟩

/-- Claim C4: strict two-tier precedence for the years heuristic: if any
"<N> year(s)" phrase matches, the result is the maximum of those values
(membership plus upper bound), ignoring date ranges entirely; with no such
phrase the result is twice the number of date ranges, and 0 when neither
tier yields anything. -/
theorem claim_C4 (text : String) :
    (yearTokens text ≠ [] →
      extractYears text ∈ yearTokens text
      ∧ ∀ n ∈ yearTokens text, n ≤ extractYears text)
    ∧ (yearTokens text = [] → extractYears text = 2 * dateRangeCount text)
    ∧ (yearTokens text = [] ∧ dateRangeCount text = 0 → extractYears text = 0) := by
  refine ⟨?_, ?_, ?_⟩
  · intro h
    cases hy : yearTokens text with
    | nil => exact absurd hy h
    | cons a l =>
      have he : extractYears text = (a :: l).foldl max 0 := by
        simp [extractYears, hy]
      have h0 : (a :: l).foldl max 0 = l.foldl max a := by
        simp
      rw [he, h0]
      refine ⟨foldl_max_mem l a, ?_⟩
      intro n hn
      rcases List.mem_cons.mp hn with h1 | h2
      · rw [h1]
        exact le_foldl_max l a
      · exact mem_le_foldl_max l a n h2
  · intro h
    simp [extractYears, h]
  · rintro ⟨h1, h2⟩
    simp [extractYears, h1, h2]

/-- Witness for C4 on a text containing both a years phrase and a date
range: the phrase wins. -/
theorem claim_C4_witness :
    yearTokens "4 years\n2019 - 2021" ≠ []
    ∧ (extractYears "4 years\n2019 - 2021" ∈ yearTokens "4 years\n2019 - 2021"
      ∧ ∀ n ∈ yearTokens "4 years\n2019 - 2021", n ≤ extractYears "4 years\n2019 - 2021") :=
  ⟨by decide, (claim_C4 "4 years\n2019 - 2021").1 (by decide)⟩


theorem ratHalfLt (a b : ℕ) : ((a : ℚ) < (b : ℚ) / 2) ↔ 2 * a < b := by
  rw [lt_div_iff₀ (by norm_num : (0 : ℚ) < 2)]
  constructor
  · intro h
    have h2 : ((2 * a : ℕ) : ℚ) < (b : ℚ) := by push_cast; linarith
    exact_mod_cast h2
  · intro h
    have h2 : ((2 * a : ℕ) : ℚ) < (b : ℚ) := by exact_mod_cast h
    push_cast at h2
    linarith

/-- Claim C6: a technical or soft keyword yields a Skill record exactly
when the lower-cased text contains the lower-cased keyword as a substring;
the record echoes the catalog casing of the keyword and is tagged by the
keyword list it came from. -/
theorem claim_C6 (text roleId : String) (rand : ℕ → ℚ) (uuid : String) (now : ℤ)
    (k : String) :
    (k ∈ (resolveRole roleId).keywords →
      ((∃ p, Skill.mk k SkillType.technical p
          ∈ (analyzeResume text roleId rand uuid now).skills)
        ↔ containsSubstr (lowerStr text) (lowerStr k) = true))
    ∧ (k ∈ (resolveRole roleId).softSkills →
      ((∃ p, Skill.mk k SkillType.soft p
          ∈ (analyzeResume text roleId rand uuid now).skills)
        ↔ containsSubstr (lowerStr text) (lowerStr k) = true))
    ∧ (∀ s ∈ (analyzeResume text roleId rand uuid now).skills,
        (s.type = SkillType.technical → s.name ∈ (resolveRole roleId).keywords)
        ∧ (s.type = SkillType.soft → s.name ∈ (resolveRole roleId).softSkills)) := by
  refine ⟨?_, ?_, ?_⟩
  · intro hk
    constructor
    · rintro ⟨p, hp⟩
      have hp2 : Skill.mk k SkillType.technical p
          ∈ techSkillsFrom rand 0 (foundTechSkills text (resolveRole roleId))
            ++ softSkillsFrom rand (foundTechSkills text (resolveRole roleId)).length
                (foundSoftSkills text (resolveRole roleId)) := hp
      rcases List.mem_append.mp hp2 with h | h
      · obtain ⟨_, hn, _⟩ := mem_techSkillsFrom 0 h
        exact (List.mem_filter.mp hn).2
      · obtain ⟨ht, _, _⟩ := mem_softSkillsFrom _ h
        exact SkillType.noConfusion ht
    · intro hc
      have hkft : k ∈ foundTechSkills text (resolveRole roleId) :=
        List.mem_filter.mpr ⟨hk, hc⟩
      obtain ⟨p, hp⟩ := exists_mem_techSkillsFrom 0 hkft
      exact ⟨p, List.mem_append.mpr (Or.inl hp)⟩
  · intro hk
    constructor
    · rintro ⟨p, hp⟩
      have hp2 : Skill.mk k SkillType.soft p
          ∈ techSkillsFrom rand 0 (foundTechSkills text (resolveRole roleId))
            ++ softSkillsFrom rand (foundTechSkills text (resolveRole roleId)).length
                (foundSoftSkills text (resolveRole roleId)) := hp
      rcases List.mem_append.mp hp2 with h | h
      · obtain ⟨ht, _, _⟩ := mem_techSkillsFrom 0 h
        exact SkillType.noConfusion ht
      · obtain ⟨_, hn, _⟩ := mem_softSkillsFrom _ h
        exact (List.mem_filter.mp hn).2
    · intro hc
      have hkfs : k ∈ foundSoftSkills text (resolveRole roleId) :=
        List.mem_filter.mpr ⟨hk, hc⟩
      obtain ⟨p, hp⟩ := exists_mem_softSkillsFrom
        (foundTechSkills text (resolveRole roleId)).length hkfs
      exact ⟨p, List.mem_append.mpr (Or.inr hp)⟩
  · intro s hsk
    have hsk2 : s ∈ techSkillsFrom rand 0 (foundTechSkills text (resolveRole roleId))
        ++ softSkillsFrom rand (foundTechSkills text (resolveRole roleId)).length
            (foundSoftSkills text (resolveRole roleId)) := hsk
    rcases List.mem_append.mp hsk2 with h | h
    · obtain ⟨ht, hn, _⟩ := mem_techSkillsFrom 0 h
      refine ⟨fun _ => (List.mem_filter.mp hn).1, fun hsoft => ?_⟩
      rw [ht] at hsoft
      exact absurd hsoft (by decide)
    · obtain ⟨ht, hn, _⟩ := mem_softSkillsFrom _ h
      refine ⟨fun htech => ?_, fun _ => (List.mem_filter.mp hn).1⟩
      rw [ht] at htech
      exact absurd htech (by decide)

/-- Witness for C6: "react" in the text (any casing) yields the Skill
record named with the catalog casing "React". -/
theorem claim_C6_witness :
    "React" ∈ (resolveRole "frontend").keywords
    ∧ ((∃ p, Skill.mk "React" SkillType.technical p
          ∈ (analyzeResume "I use react daily" "frontend" (fun _ => 0) "u" 0).skills)
        ↔ containsSubstr (lowerStr "I use react daily") (lowerStr "React") = true) :=
  ⟨by decide,
   (claim_C6 "I use react daily" "frontend" (fun _ => 0) "u" 0 "React").1 (by decide)⟩

/-- Claim C7: degree and certification vocabulary tokens are listed exactly
when the raw text contains them case-sensitively, and the output lists
preserve vocabulary order (they are sublists of the vocabularies). -/
theorem claim_C7 (text roleId : String) (rand : ℕ → ℚ) (uuid : String) (now : ℤ) :
    (∀ d ∈ degreeVocab,
      (d ∈ (analyzeResume text roleId rand uuid now).education.degrees
        ↔ containsSubstr text d = true))
    ∧ List.Sublist (analyzeResume text roleId rand uuid now).education.degrees degreeVocab
    ∧ (∀ c ∈ certVocab,
      (c ∈ (analyzeResume text roleId rand uuid now).education.certifications
        ↔ containsSubstr text c = true))
    ∧ List.Sublist (analyzeResume text roleId rand uuid now).education.certifications
        certVocab := by
  refine ⟨?_, ?_, ?_, ?_⟩
  · intro d hd
    constructor
    · intro hmem
      have hm2 : d ∈ degreeVocab.filter (fun d => containsSubstr text d) := hmem
      exact (List.mem_filter.mp hm2).2
    · intro hc
      exact List.mem_filter.mpr ⟨hd, hc⟩
  · exact List.filter_sublist degreeVocab
  · intro c hc0
    constructor
    · intro hmem
      have hm2 : c ∈ certVocab.filter (fun c => containsSubstr text c) := hmem
      exact (List.mem_filter.mp hm2).2
    · intro hc
      exact List.mem_filter.mpr ⟨hc0, hc⟩
  · exact List.filter_sublist certVocab

/-- Witness for C7: "B.S." is detected in the raw text, and the
lower-case "aws" in the text does not fire the case-sensitive "AWS"
token. -/
theorem claim_C7_witness :
    "B.S." ∈ degreeVocab
    ∧ ("B.S." ∈ (analyzeResume "B.S. from aws" "frontend" (fun _ => 0) "u" 0).education.degrees
        ↔ containsSubstr "B.S. from aws" "B.S." = true) :=
  ⟨by decide,
   (claim_C7 "B.S. from aws" "frontend" (fun _ => 0) "u" 0).1 "B.S." (by decide)⟩

/-- Claim C8: the recommendations list always has exactly 6 entries in a
fixed order, each of the first four slots selected by its own binary
condition (technical-gap, experience-gap, certification mention,
soft-skill count), and the last two slots fixed. -/
theorem claim_C8 (text roleId : String) (rand : ℕ → ℚ) (uuid : String) (now : ℤ) :
    (analyzeResume text roleId rand uuid now).recommendations
      = [if 2 * (foundTechSkills text (resolveRole roleId)).length
            < (resolveRole roleId).keywords.length then
           "Add more technical keywords like "
             ++ String.intercalate ", "
                 (((resolveRole roleId).keywords.filter
                     (fun k => !((foundTechSkills text (resolveRole roleId)).contains k))).take 2)
             ++ "."
         else "Great technical keyword density.",
         if extractYears text < (resolveRole roleId).minYears then
           "Highlight more relevant projects to compensate for "
             ++ toString (extractYears text)
             ++ " years of experience (target: "
             ++ toString (resolveRole roleId).minYears ++ "+)."
         else "Experience level meets or exceeds role requirements.",
         if containsSubstr (lowerStr text) "certification" = false then
           "Consider adding industry-recognized certifications to boost credibility."
         else "Good certification profile.",
         if (foundSoftSkills text (resolveRole roleId)).length < 2 then
           "Elaborate more on soft skills like leadership or communication in your experience section."
         else "Soft skills are well-represented.",
         "Quantify your achievements with more metrics (e.g., \x27increased revenue by 20%\x27).",
         "Ensure your summary section directly aligns with the specific job description."]
    ∧ (analyzeResume text roleId rand uuid now).recommendations.length = 6 := by
  have e1 : ∀ (X Y : String) (a b : ℕ),
      (if (a : ℚ) < (b : ℚ) / 2 then X else Y) = (if 2 * a < b then X else Y) := by
    intro X Y a b
    exact if_congr (ratHalfLt a b) rfl rfl
  have e3 : ∀ (X Y : String) (b : Bool),
      (if !b then X else Y) = (if b = false then X else Y) := by
    intro X Y b
    cases b <;> simp
  constructor
  · show recommendationsOf text (resolveRole roleId) = _
    simp only [recommendationsOf]
    rw [e1, e3]
  · rfl

end TalentScan
